import Mathlib

/-!
# SiteVouch queue/cache/retry engine: a shallow embedding

This file embeds the queue, cache and source-registry logic of the
SiteVouch background script (`src/sw.js`) in Lean, together with the
earlier background-script variant (`src/unnamed/part_004`) whose cache
lookup carries a model-version check.  Stateful JavaScript is rendered as
explicit state passing: the `chrome.storage.local` cache becomes a
function from keys to optional entries, and the in-memory scheduler
globals (`queryQueue`, `currentTask`, `lastError`) become fields of a
`SchedState` record.  JavaScript numbers are rendered as `Nat`/`Int` with
explicit coercions where subtraction may go negative.
-/

namespace SiteVouch

/-- `CACHE_STALE_MS` from sw.js line 3: 7 days in milliseconds. -/
def CACHE_STALE_MS : Int := 7 * 24 * 60 * 60 * 1000

/-- `CACHE_EXPIRE_MS` from sw.js line 4: 30 days in milliseconds. -/
def CACHE_EXPIRE_MS : Int := 30 * 24 * 60 * 60 * 1000

/-- One reputation review, per the response schema of `performGeminiQuery`.
Only equality of review values matters to the cache logic, so the
JavaScript number `rating` is rendered as an `Int`. -/
structure Review where
  source : String
  url : String
  rating : Int
  summary : List String
deriving DecidableEq, Repr

/-- A cache entry as written by `saveToCache` (sw.js lines 124-135).
`groundingMetadata` is an opaque blob to the cache logic, rendered here as
an optional string. -/
structure CacheEntry where
  hostname : String
  timestamp : Nat
  reviews : List Review
  isSource : Bool
  groundingMetadata : Option String
deriving DecidableEq, Repr

/-- The value `getFromCache` hands back to callers: the stored entry
together with the `isStale` flag that `getFromCache` stamps onto it
(sw.js line 120). -/
structure CacheHit where
  entry : CacheEntry
  isStale : Bool
deriving DecidableEq, Repr

/-- `chrome.storage.local` restricted to cache entries: a map from string
keys to entries. -/
def LocalStore := String → Option CacheEntry

/-- The key `` `cache_${hostname}` `` used by the cache functions. -/
def cacheKey (hostname : String) : String := "cache_" ++ hostname

/-- `chrome.storage.local.remove(key)`. -/
def removeKey (store : LocalStore) (key : String) : LocalStore :=
  fun k => if k = key then none else store k

/-- `chrome.storage.local.set({[key]: e})`. -/
def setKey (store : LocalStore) (key : String) (e : CacheEntry) : LocalStore :=
  fun k => if k = key then some e else store k

/-- `getFromCache(hostname)` (sw.js lines 98-122).  Inputs beyond the
hostname are the ambient state the JavaScript reads: the local store, the
synced `lastSettingsChange` timestamp (absent keys read as `undefined`,
coalesced to `0` by `|| 0`), and `Date.now()`.  Returns the result and
the (possibly updated, on expiry) store. -/
def getFromCache (store : LocalStore) (lastSettingsChange : Option Nat)
    (now : Nat) (hostname : String) : Option CacheHit × LocalStore :=
  match store (cacheKey hostname) with
  | none => (none, store)
  | some entry =>
    -- `age` is `Date.now() - entry.timestamp`; `globalSettingsTs` is
    -- `lastSettingsChange || 0`; `settingsStale` is
    -- `entry.timestamp < globalSettingsTs` (sw.js lines 107-120, local
    -- aliases inlined).
    if (now : Int) - (entry.timestamp : Int) > CACHE_EXPIRE_MS then
      (none, removeKey store (cacheKey hostname))
    else
      (some ⟨entry,
        decide ((now : Int) - (entry.timestamp : Int) > CACHE_STALE_MS) ||
          decide (entry.timestamp < lastSettingsChange.getD 0)⟩, store)

/-- `saveToCache(hostname, reviews, isSource, groundingMetadata)`
(sw.js lines 124-135), with `Date.now()` passed explicitly.  Returns the
freshly stamped entry and the updated store. -/
def saveToCache (store : LocalStore) (hostname : String)
    (reviews : List Review) (isSource : Bool)
    (groundingMetadata : Option String) (now : Nat) :
    CacheEntry × LocalStore :=
  let entry : CacheEntry := ⟨hostname, now, reviews, isSource, groundingMetadata⟩
  (entry, setKey store (cacheKey hostname) entry)

/-! ## Source registry (sw.js lines 55-92) -/

/-- The three source states `'on' | 'auto' | 'off'`. -/
inductive SourceState where
  | on
  | auto
  | off
deriving DecidableEq, Repr

/-- A trusted-source record `{domain, state, visits}`. -/
structure SourceRecord where
  domain : String
  state : SourceState
  visits : Nat
deriving DecidableEq, Repr

/-- The raw `sources` value in storage: either the legacy shape (a plain
list of domain strings) or the migrated record list.  `migrateSources`
distinguishes them by `typeof sources[0] === 'string'`. -/
inductive RawSources where
  | strings (l : List String)
  | records (l : List SourceRecord)
deriving DecidableEq, Repr

/-- `migrateSources(sources)` (sw.js lines 55-65).  `none` renders a
null/undefined `sources` value (`!sources`). -/
def migrateSources : Option RawSources → List SourceRecord
  | none => []
  | some (.strings l) =>
    if l.isEmpty then [] else l.map fun s => ⟨s, .on, 0⟩
  | some (.records l) =>
    if l.isEmpty then [] else l

/-- `stateOrder = { 'on': 0, 'auto': 1, 'off': 2 }` (sw.js line 71). -/
def stateOrder : SourceState → Nat
  | .on => 0
  | .auto => 1
  | .off => 2

/-- The comparator passed to `sort` in `getActiveSources` (sw.js lines
72-77), as a "comes no later than" Boolean relation: primary key
`stateOrder` ascending, secondary key `visits` descending. -/
def sourceLe (a b : SourceRecord) : Bool :=
  if stateOrder a.state ≠ stateOrder b.state then
    decide (stateOrder a.state < stateOrder b.state)
  else
    decide (b.visits ≤ a.visits)

/-- `sourceLe` as a relation, for use with the stable sort. -/
def sourceRel (a b : SourceRecord) : Prop := sourceLe a b = true

instance : DecidableRel sourceRel := fun a b =>
  inferInstanceAs (Decidable (sourceLe a b = true))

/-- The `sorted` local of `getActiveSources` (sw.js line 72).  JavaScript
`Array.prototype.sort` is a stable sort directed by the comparator;
`List.insertionSort` is the stable sort realising the same ordering. -/
def sortedSources (sourcesRaw : Option RawSources) : List SourceRecord :=
  (migrateSources sourcesRaw).insertionSort sourceRel

/-- The `onSources` local (sw.js line 80). -/
def onSources (sourcesRaw : Option RawSources) : List SourceRecord :=
  (sortedSources sourcesRaw).filter fun s => decide (s.state = .on)

/-- The `autoSources` local (sw.js line 81). -/
def autoSources (sourcesRaw : Option RawSources) : List SourceRecord :=
  (sortedSources sourcesRaw).filter fun s => decide (s.state = .auto)

/-- The `activeAuto` local (sw.js lines 87-88): `Math.max(0, maxProviders
- onSources.length)` is truncated subtraction on `Nat`. -/
def activeAuto (sourcesRaw : Option RawSources) (maxProviders : Nat) :
    List SourceRecord :=
  (autoSources sourcesRaw).take (maxProviders - (onSources sourcesRaw).length)

/-- `getActiveSources(sourcesRaw, maxProviders)` (sw.js lines 67-92):
all `on` domains, then the selected `auto` domains. -/
def getActiveSources (sourcesRaw : Option RawSources) (maxProviders : Nat) :
    List String :=
  (onSources sourcesRaw).map SourceRecord.domain ++
    (activeAuto sourcesRaw maxProviders).map SourceRecord.domain

/-- The comparator order, spelt out: earlier `stateOrder`, or equal
`stateOrder` and at least as many visits. -/
theorem sourceLe_iff (a b : SourceRecord) :
    sourceLe a b = true ↔
      (stateOrder a.state < stateOrder b.state ∨
        (stateOrder a.state = stateOrder b.state ∧ b.visits ≤ a.visits)) := by
  unfold sourceLe
  by_cases h : stateOrder a.state ≠ stateOrder b.state
  · rw [if_pos h]
    simp only [decide_eq_true_eq]
    constructor
    · exact fun hlt => Or.inl hlt
    · rintro (hlt | ⟨heq, _⟩)
      · exact hlt
      · exact absurd heq h
  · rw [if_neg h]
    push_neg at h
    simp only [decide_eq_true_eq]
    constructor
    · exact fun hv => Or.inr ⟨h, hv⟩
    · rintro (hlt | ⟨_, hv⟩)
      · omega
      · exact hv

instance : IsTotal SourceRecord sourceRel :=
  ⟨fun a b => by
    unfold sourceRel
    rw [sourceLe_iff, sourceLe_iff]
    rcases Nat.le_total b.visits a.visits with h | h <;> omega⟩

instance : IsTrans SourceRecord sourceRel :=
  ⟨fun a b c hab hbc => by
    unfold sourceRel at *
    rw [sourceLe_iff] at hab hbc ⊢
    omega⟩

/-- The sort is a permutation of the migrated records. -/
theorem sortedSources_perm (raw : Option RawSources) :
    (sortedSources raw).Perm (migrateSources raw) :=
  List.perm_insertionSort sourceRel (migrateSources raw)

/-- Every `on` record's domain appears in the selection. -/
theorem getActiveSources_mem_of_on (raw : Option RawSources)
    (maxProviders : Nat) (r : SourceRecord)
    (hr : r ∈ migrateSources raw) (hron : r.state = .on) :
    r.domain ∈ getActiveSources raw maxProviders := by
  have hsorted : r ∈ sortedSources raw := (sortedSources_perm raw).mem_iff.mpr hr
  have hon : r ∈ onSources raw :=
    List.mem_filter.mpr ⟨hsorted, by simp [hron]⟩
  exact List.mem_append_left _ (List.mem_map_of_mem SourceRecord.domain hon)

/-- Every selected domain belongs to an `on` or `auto` record. -/
theorem getActiveSources_mem_source (raw : Option RawSources)
    (maxProviders : Nat) (d : String)
    (hd : d ∈ getActiveSources raw maxProviders) :
    ∃ r ∈ migrateSources raw,
      r.domain = d ∧ (r.state = .on ∨ r.state = .auto) := by
  rcases List.mem_append.mp hd with hmem | hmem
  · obtain ⟨r, hr, hdom⟩ := List.mem_map.mp hmem
    have hr' := List.mem_filter.mp hr
    exact ⟨r, (sortedSources_perm raw).mem_iff.mp hr'.1, hdom,
      Or.inl (by simpa using hr'.2)⟩
  · obtain ⟨r, hr, hdom⟩ := List.mem_map.mp hmem
    have hr2 : r ∈ autoSources raw := (List.take_sublist _ _).subset hr
    have hr' := List.mem_filter.mp hr2
    exact ⟨r, (sortedSources_perm raw).mem_iff.mp hr'.1, hdom,
      Or.inr (by simpa using hr'.2)⟩

/-- With unique domains, no `off` record's domain is selected. -/
theorem getActiveSources_not_off (raw : Option RawSources)
    (maxProviders : Nat)
    (hnodup : ((migrateSources raw).map SourceRecord.domain).Nodup)
    (r : SourceRecord) (hr : r ∈ migrateSources raw)
    (hroff : r.state = .off) :
    r.domain ∉ getActiveSources raw maxProviders := by
  intro hmem
  obtain ⟨r', hr', hdom, hstate⟩ :=
    getActiveSources_mem_source raw maxProviders r.domain hmem
  have : r' = r := List.inj_on_of_nodup_map hnodup hr' hr hdom
  subst this
  rw [hroff] at hstate
  rcases hstate with h | h <;> exact SourceState.noConfusion h

/-- The selection size: all `on` records, plus `auto` records up to the
remaining slots. -/
theorem getActiveSources_length (raw : Option RawSources)
    (maxProviders : Nat) :
    (getActiveSources raw maxProviders).length =
      (migrateSources raw).countP (fun s => decide (s.state = .on)) +
        min (maxProviders -
              (migrateSources raw).countP (fun s => decide (s.state = .on)))
            ((migrateSources raw).countP (fun s => decide (s.state = .auto))) := by
  have hon : (onSources raw).length =
      (migrateSources raw).countP (fun s => decide (s.state = .on)) := by
    rw [onSources, ← List.countP_eq_length_filter]
    exact (sortedSources_perm raw).countP_eq _
  have hauto : (autoSources raw).length =
      (migrateSources raw).countP (fun s => decide (s.state = .auto)) := by
    rw [autoSources, ← List.countP_eq_length_filter]
    exact (sortedSources_perm raw).countP_eq _
  rw [getActiveSources, List.length_append, List.length_map, List.length_map,
    activeAuto, List.length_take, hon, hauto]

/-- The `auto` partition of the sorted list is ordered by visits
descending. -/
theorem autoSources_sorted_visits (raw : Option RawSources) :
    (autoSources raw).Pairwise (fun a b => b.visits ≤ a.visits) := by
  have hsorted : (sortedSources raw).Pairwise sourceRel :=
    List.sorted_insertionSort sourceRel (migrateSources raw)
  have hfiltered : (autoSources raw).Pairwise sourceRel :=
    hsorted.filter _
  refine hfiltered.imp_of_mem ?_
  intro a b ha hb hab
  have hastate : a.state = .auto := by
    simpa using (List.mem_filter.mp ha).2
  have hbstate : b.state = .auto := by
    simpa using (List.mem_filter.mp hb).2
  rw [sourceRel, sourceLe_iff, hastate, hbstate] at hab
  rcases hab with h | ⟨_, h⟩
  · exact absurd h (by simp)
  · exact h

/-- The selected `auto` records are ordered by visits descending and all
have state `auto`. -/
theorem activeAuto_sorted_visits (raw : Option RawSources)
    (maxProviders : Nat) :
    (activeAuto raw maxProviders).Pairwise (fun a b => b.visits ≤ a.visits) :=
  (autoSources_sorted_visits raw).sublist (List.take_sublist _ _)

theorem activeAuto_state (raw : Option RawSources) (maxProviders : Nat)
    (r : SourceRecord) (hr : r ∈ activeAuto raw maxProviders) :
    r.state = .auto := by
  have hr2 : r ∈ autoSources raw := (List.take_sublist _ _).subset hr
  simpa using (List.mem_filter.mp hr2).2

/-- The selected `auto` records dominate the unselected ones by visit
count. -/
theorem activeAuto_top (raw : Option RawSources) (maxProviders : Nat)
    (x : SourceRecord) (hx : x ∈ activeAuto raw maxProviders)
    (y : SourceRecord)
    (hy : y ∈ (autoSources raw).drop
      (maxProviders - (onSources raw).length)) :
    y.visits ≤ x.visits := by
  have hsplit := List.take_append_drop
    (maxProviders - (onSources raw).length) (autoSources raw)
  have hpw := autoSources_sorted_visits raw
  rw [← hsplit] at hpw
  exact (List.pairwise_append.mp hpw).2.2 x hx y hy

/-! ## Task queue and scheduler (sw.js lines 155-233) -/

/-- One queued unit of work (a `{hostname, forceRefresh, tabId}` object
pushed by `addToQueue`; `retryAttempts`/`nextRetryTime` start absent,
which the 503 handler coalesces to `0`, so they are rendered as `0` and
`none`). -/
structure Task where
  hostname : String
  forceRefresh : Bool
  tabId : Option Nat
  retryAttempts : Nat
  nextRetryTime : Option Nat
deriving DecidableEq, Repr

/-- The scheduler globals of sw.js: `queryQueue`, `currentTask`,
`lastError`. -/
structure SchedState where
  queryQueue : List Task
  currentTask : Option Task
  lastError : Option String
deriving DecidableEq, Repr

/-- The scheduler state at process start: empty queue, no active task,
no recorded error. -/
def initialState : SchedState := ⟨[], none, none⟩

/-- JavaScript truthiness of a `tabId` value: `null`/`undefined` and `0`
are falsy (`if (tabId) ...`). -/
def truthyTab : Option Nat → Bool
  | none => false
  | some n => decide (n ≠ 0)

/-- The in-place update `addToQueue` performs on the first queued task
whose hostname matches (sw.js lines 160-167): `forceRefresh` is forced to
`true` when the argument is `true`, and `tabId` is overwritten only when
the new `tabId` is truthy. -/
def mergeQueued (queue : List Task) (hostname : String)
    (forceRefresh : Bool) (tabId : Option Nat) : List Task :=
  match queue with
  | [] => []
  | t :: rest =>
    if t.hostname = hostname then
      { t with
        forceRefresh := t.forceRefresh || forceRefresh,
        tabId := if truthyTab tabId then tabId else t.tabId } :: rest
    else
      t :: mergeQueued rest hostname forceRefresh tabId

/-- The synchronous prefix of `processQueue` (sw.js lines 181-185): when
no task is active, shift the queue head into the active slot.  The rest
of `processQueue` runs after an `await` suspension point. -/
def startNext (st : SchedState) : SchedState :=
  match st.currentTask, st.queryQueue with
  | none, t :: rest => { st with currentTask := some t, queryQueue := rest }
  | _, _ => st

/-- `addToQueue(hostname, forceRefresh, tabId)` (sw.js lines 159-178),
including the synchronous queue-head shift of the `processQueue()` call
it makes when no task is active. -/
def addToQueue (st : SchedState) (hostname : String) (forceRefresh : Bool)
    (tabId : Option Nat) : SchedState :=
  if st.queryQueue.any fun t => decide (t.hostname = hostname) then
    { st with queryQueue := mergeQueued st.queryQueue hostname forceRefresh tabId }
  else
    match st.currentTask with
    | some t =>
      if t.hostname = hostname then
        let t' := if truthyTab tabId then { t with tabId := tabId } else t
        { st with currentTask := some t' }
      else
        { st with queryQueue := st.queryQueue ++ [⟨hostname, forceRefresh, tabId, 0, none⟩] }
    | none =>
      startNext { st with queryQueue := st.queryQueue ++ [⟨hostname, forceRefresh, tabId, 0, none⟩] }

/-- The exponential-backoff delay computed by the 503 handler
(sw.js line 217): `attempts === 0 ? 0 : Math.min(5000 * 2 **
(attempts - 1), 300000)`. -/
def backoffDelay (retryAttempts : Nat) : Nat :=
  if retryAttempts = 0 then 0 else min (5000 * 2 ^ (retryAttempts - 1)) 300000

/-- The outcome of the `catch` block of `processQueue`: the mutated
scheduler state, plus the delay of the `setTimeout(processQueue, delay)`
re-entry it scheduled, if any. -/
structure ErrorStep where
  state : SchedState
  scheduledRetryDelay : Option Nat
deriving DecidableEq, Repr

/-- The `catch` block of `processQueue` (sw.js lines 210-233) as a state
transition on a query failure carrying an HTTP `status` and a `message`.
On 503 the active task stays in place with `nextRetryTime`/`retryAttempts`
updated and a deferred loop re-entry is scheduled; on any other status the
error message is recorded and the active slot is cleared (the subsequent
synchronous `processQueue()` re-entry is a separate `startNext` step).
The `catch` block only runs while a task is active, so the `none` case is
vacuous. -/
def handleQueryError (st : SchedState) (status : Nat) (message : String)
    (now : Nat) : ErrorStep :=
  match st.currentTask with
  | some t =>
    if status = 503 then
      let attempts := t.retryAttempts
      let delay := backoffDelay attempts
      let t' : Task :=
        { t with nextRetryTime := some (now + delay), retryAttempts := attempts + 1 }
      { state := { st with currentTask := some t' }, scheduledRetryDelay := some delay }
    else
      { state := { st with lastError := some message, currentTask := none },
        scheduledRetryDelay := none }
  | none => { state := st, scheduledRetryDelay := none }

/-! ## Earlier background-script variant (`src/unnamed/part_004`)

This superseded iteration keys cache validity on the configured model
name: its `getFromCache` returns `null` on a model mismatch, before any
age check. -/

namespace Part004

/-- `CACHE_STALE_MS` from part_004 line 3: 24 hours. -/
def CACHE_STALE_MS : Int := 24 * 60 * 60 * 1000

/-- `CACHE_EXPIRE_MS` from part_004 line 4: 7 days. -/
def CACHE_EXPIRE_MS : Int := 7 * 24 * 60 * 60 * 1000

/-- A cache entry as written by part_004's `saveToCache` (lines 171-181):
it records the model name used to produce it. -/
structure CacheEntry where
  hostname : String
  timestamp : Nat
  reviews : List Review
  model : String
deriving DecidableEq, Repr

/-- Part_004's `getFromCache` result: the entry plus its `isStale` flag. -/
structure CacheHit where
  entry : CacheEntry
  isStale : Bool
deriving DecidableEq, Repr

/-- `chrome.storage.local` for the part_004 entry shape. -/
def Store := String → Option CacheEntry

/-- The default model name `'gemini-3-flash-preview'` (part_004 line 151). -/
def defaultModel : String := "gemini-3-flash-preview"

/-- JavaScript `preferredModel || default`: `null`/`undefined` and the
empty string fall back to the default. -/
def jsOrString (v : Option String) (dflt : String) : String :=
  match v with
  | none => dflt
  | some s => if s.isEmpty then dflt else s

/-- `getFromCache(hostname)` (part_004 lines 142-169): a model-name
mismatch returns `null` outright — before the expiry check, so without
touching the store. -/
def getFromCache (store : Store) (preferredModel : Option String)
    (now : Nat) (hostname : String) : Option CacheHit × Store :=
  match store ("cache_" ++ hostname) with
  | none => (none, store)
  | some entry =>
    -- `currentModel` is `preferredModel || 'gemini-3-flash-preview'` and
    -- `age` is `Date.now() - entry.timestamp` (part_004 lines 150-167,
    -- local aliases inlined).
    if entry.model ≠ jsOrString preferredModel defaultModel then
      (none, store)
    else if (now : Int) - (entry.timestamp : Int) > CACHE_EXPIRE_MS then
      (none, fun k => if k = "cache_" ++ hostname then none else store k)
    else
      (some ⟨entry, decide ((now : Int) - (entry.timestamp : Int) > CACHE_STALE_MS)⟩, store)

/-- `saveToCache(hostname, reviews, model)` (part_004 lines 171-181). -/
def saveToCache (store : Store) (hostname : String) (reviews : List Review)
    (model : String) (now : Nat) : CacheEntry × Store :=
  let entry : CacheEntry := ⟨hostname, now, reviews, model⟩
  (entry, fun k => if k = "cache_" ++ hostname then some entry else store k)

end Part004

/-! ## Derived queue measures -/

/-- Number of tasks for `hostname` across the pending queue and the
current-task slot. -/
def hostCount (st : SchedState) (hostname : String) : Nat :=
  st.queryQueue.countP (fun t => decide (t.hostname = hostname)) +
    (match st.currentTask with
     | some t => if t.hostname = hostname then 1 else 0
     | none => 0)

/-- Total number of live tasks (queue plus slot). -/
def taskCount (st : SchedState) : Nat :=
  st.queryQueue.length +
    (match st.currentTask with
     | some _ => 1
     | none => 0)

/-- The single-flight invariant: at most one task per hostname across the
union of the queue and the current-task slot. -/
def SingleFlight (st : SchedState) : Prop := ∀ h, hostCount st h ≤ 1

/-- The arguments of one `addToQueue` call. -/
structure EnqueueCall where
  hostname : String
  forceRefresh : Bool
  tabId : Option Nat
deriving DecidableEq, Repr

/-- Run a sequence of `addToQueue` calls from process start. -/
def runEnqueues (calls : List EnqueueCall) : SchedState :=
  calls.foldl (fun st c => addToQueue st c.hostname c.forceRefresh c.tabId)
    initialState

/-! ## Helper lemmas -/

theorem mergeQueued_countP (q : List Task) (h : String) (fr : Bool)
    (tid : Option Nat) (h' : String) :
    (mergeQueued q h fr tid).countP (fun t => decide (t.hostname = h')) =
      q.countP (fun t => decide (t.hostname = h')) := by
  induction q with
  | nil => rfl
  | cons t rest ih =>
    by_cases hth : t.hostname = h
    · simp [mergeQueued, hth, List.countP_cons]
    · simp [mergeQueued, hth, List.countP_cons, ih]

theorem mergeQueued_length (q : List Task) (h : String) (fr : Bool)
    (tid : Option Nat) :
    (mergeQueued q h fr tid).length = q.length := by
  induction q with
  | nil => rfl
  | cons t rest ih =>
    by_cases hth : t.hostname = h
    · simp [mergeQueued, hth]
    · simp [mergeQueued, hth, ih]

theorem startNext_hostCount (st : SchedState) (h : String) :
    hostCount (startNext st) h = hostCount st h := by
  obtain ⟨q, cur, err⟩ := st
  cases cur with
  | some t => cases q <;> rfl
  | none =>
    cases q with
    | nil => rfl
    | cons t rest =>
      simp only [startNext, hostCount, List.countP_cons, decide_eq_true_eq]
      omega

theorem startNext_taskCount (st : SchedState) :
    taskCount (startNext st) = taskCount st := by
  obtain ⟨q, cur, err⟩ := st
  cases cur with
  | some t => cases q <;> rfl
  | none =>
    cases q with
    | nil => rfl
    | cons t rest =>
      simp only [startNext, taskCount, List.length_cons]

/-- Branch shape of `addToQueue`: the enqueued hostname is already
queued. -/
theorem addToQueue_eq_merge (q : List Task) (cur : Option Task)
    (err : Option String) (hostname : String) (fr : Bool) (tid : Option Nat)
    (hany : (q.any fun t => decide (t.hostname = hostname)) = true) :
    addToQueue ⟨q, cur, err⟩ hostname fr tid =
      ⟨mergeQueued q hostname fr tid, cur, err⟩ := by
  simp [addToQueue, hany]

/-- Branch shape of `addToQueue`: the enqueued hostname is the active
task's. -/
theorem addToQueue_eq_active (q : List Task) (t : Task)
    (err : Option String) (hostname : String) (fr : Bool) (tid : Option Nat)
    (hany : (q.any fun t => decide (t.hostname = hostname)) = false)
    (hth : t.hostname = hostname) :
    addToQueue ⟨q, some t, err⟩ hostname fr tid =
      ⟨q, some (if truthyTab tid then { t with tabId := tid } else t), err⟩ := by
  simp [addToQueue, hany, hth]

/-- Branch shape of `addToQueue`: a fresh hostname while another task is
active — push to the tail. -/
theorem addToQueue_eq_push (q : List Task) (t : Task)
    (err : Option String) (hostname : String) (fr : Bool) (tid : Option Nat)
    (hany : (q.any fun t => decide (t.hostname = hostname)) = false)
    (hth : t.hostname ≠ hostname) :
    addToQueue ⟨q, some t, err⟩ hostname fr tid =
      ⟨q ++ [⟨hostname, fr, tid, 0, none⟩], some t, err⟩ := by
  simp [addToQueue, hany, hth]

/-- Branch shape of `addToQueue`: a fresh hostname while idle — push,
then the triggered `processQueue` shifts the head into the slot. -/
theorem addToQueue_eq_push_idle (q : List Task)
    (err : Option String) (hostname : String) (fr : Bool) (tid : Option Nat)
    (hany : (q.any fun t => decide (t.hostname = hostname)) = false) :
    addToQueue ⟨q, none, err⟩ hostname fr tid =
      startNext ⟨q ++ [⟨hostname, fr, tid, 0, none⟩], none, err⟩ := by
  simp [addToQueue, hany]

theorem countP_eq_zero_of_any_eq_false (q : List Task) (hostname : String)
    (hany : (q.any fun t => decide (t.hostname = hostname)) = false) :
    q.countP (fun t => decide (t.hostname = hostname)) = 0 := by
  rw [List.countP_eq_zero]
  intro t ht
  exact List.any_eq_false.mp hany t ht

/-- `addToQueue` preserves the single-flight invariant. -/
theorem addToQueue_singleFlight (st : SchedState) (hostname : String)
    (fr : Bool) (tid : Option Nat) (hinv : SingleFlight st) :
    SingleFlight (addToQueue st hostname fr tid) := by
  intro h
  obtain ⟨q, cur, err⟩ := st
  rcases hany : (q.any fun t => decide (t.hostname = hostname)) with _ | _
  · -- hostname not in the queue
    have hzero := countP_eq_zero_of_any_eq_false q hostname hany
    cases cur with
    | some t =>
      by_cases hth : t.hostname = hostname
      · rw [addToQueue_eq_active q t err hostname fr tid hany hth]
        have hname : (if truthyTab tid then { t with tabId := tid } else t).hostname
            = t.hostname := by
          cases truthyTab tid <;> rfl
        have := hinv h
        simp only [hostCount, hname] at this ⊢
        exact this
      · rw [addToQueue_eq_push q t err hostname fr tid hany hth]
        have := hinv h
        simp only [hostCount, List.countP_append, List.countP_cons,
          List.countP_nil, decide_eq_true_eq] at this ⊢
        by_cases hh : h = hostname
        · subst hh
          rw [hzero] at this ⊢
          rw [if_pos rfl, if_neg hth]
        · rw [if_neg (fun hc => hh hc.symm)]
          omega
    | none =>
      rw [addToQueue_eq_push_idle q err hostname fr tid hany,
        startNext_hostCount]
      have := hinv h
      simp only [hostCount, List.countP_append, List.countP_cons,
        List.countP_nil, decide_eq_true_eq] at this ⊢
      by_cases hh : h = hostname
      · subst hh
        rw [hzero] at this ⊢
        rw [if_pos rfl]
      · rw [if_neg (fun hc => hh hc.symm)]
        omega
  · -- hostname already queued: merge in place
    rw [addToQueue_eq_merge q cur err hostname fr tid hany]
    have := hinv h
    simp only [hostCount] at this ⊢
    rw [mergeQueued_countP]
    exact this

/-- When the enqueued hostname is already live, `addToQueue` does not
change the total number of tasks. -/
theorem addToQueue_taskCount_of_present (st : SchedState) (hostname : String)
    (fr : Bool) (tid : Option Nat)
    (hpresent : 1 ≤ hostCount st hostname) :
    taskCount (addToQueue st hostname fr tid) = taskCount st := by
  obtain ⟨q, cur, err⟩ := st
  rcases hany : (q.any fun t => decide (t.hostname = hostname)) with _ | _
  · have hzero := countP_eq_zero_of_any_eq_false q hostname hany
    cases cur with
    | some t =>
      by_cases hth : t.hostname = hostname
      · rw [addToQueue_eq_active q t err hostname fr tid hany hth]
        rfl
      · exfalso
        simp only [hostCount, hzero, if_neg hth] at hpresent
        omega
    | none =>
      exfalso
      simp only [hostCount, hzero] at hpresent
      omega
  · rw [addToQueue_eq_merge q cur err hostname fr tid hany]
    simp only [taskCount, mergeQueued_length]

theorem runEnqueues_singleFlight (calls : List EnqueueCall) :
    SingleFlight (runEnqueues calls) := by
  have hbase : SingleFlight initialState := by
    intro h
    simp [hostCount, initialState]
  suffices hgen : ∀ (st : SchedState), SingleFlight st →
      SingleFlight (calls.foldl
        (fun st c => addToQueue st c.hostname c.forceRefresh c.tabId) st) by
    exact hgen initialState hbase
  induction calls with
  | nil => intro st hst; exact hst
  | cons c rest ih =>
    intro st hst
    exact ih _ (addToQueue_singleFlight st c.hostname c.forceRefresh c.tabId hst)

/-- Reading the part_004 cache when an entry is present. -/
theorem part004_getFromCache_of_entry (store : Part004.Store)
    (pm : Option String) (now : Nat) (hostname : String)
    (e : Part004.CacheEntry)
    (hstore : store ("cache_" ++ hostname) = some e) :
    Part004.getFromCache store pm now hostname =
      if e.model ≠ Part004.jsOrString pm Part004.defaultModel then
        (none, store)
      else if (now : Int) - (e.timestamp : Int) > Part004.CACHE_EXPIRE_MS then
        (none, fun k => if k = "cache_" ++ hostname then none else store k)
      else
        (some ⟨e, decide ((now : Int) - (e.timestamp : Int) > Part004.CACHE_STALE_MS)⟩,
         store) := by
  unfold Part004.getFromCache
  rw [hstore]

/-- Reading the cache when an entry is present: the branch structure of
`getFromCache`, with the stored entry substituted in. -/
theorem getFromCache_of_entry (store : LocalStore) (lsc : Option Nat)
    (now : Nat) (hostname : String) (e : CacheEntry)
    (hstore : store (cacheKey hostname) = some e) :
    getFromCache store lsc now hostname =
      if (now : Int) - (e.timestamp : Int) > CACHE_EXPIRE_MS then
        (none, removeKey store (cacheKey hostname))
      else
        (some ⟨e, decide ((now : Int) - (e.timestamp : Int) > CACHE_STALE_MS) ||
                decide (e.timestamp < lsc.getD 0)⟩, store) := by
  unfold getFromCache
  rw [hstore]

/-- Reading the cache at an absent key. -/
theorem getFromCache_of_absent (store : LocalStore) (lsc : Option Nat)
    (now : Nat) (hostname : String)
    (hstore : store (cacheKey hostname) = none) :
    getFromCache store lsc now hostname = (none, store) := by
  unfold getFromCache
  rw [hstore]

/-! ## Claim theorems -/

/-- Claim C3: the backoff delay after a 503 is `0` on attempt `0` and
`min(5000 * 2^(a-1), 300000)` on attempt `a ≥ 1`; three consecutive 503
failures of a fresh task schedule retries after `0`, `5000` and `10000`
milliseconds; and the delay never exceeds `300000` for any attempt
count. -/
theorem backoff_schedule :
    backoffDelay 0 = 0 ∧
    (∀ a : Nat, backoffDelay (a + 1) = min (5000 * 2 ^ a) 300000) ∧
    (∀ a : Nat, backoffDelay a ≤ 300000) ∧
    (let st0 : SchedState := ⟨[], some ⟨"example.com", false, none, 0, none⟩, none⟩
     let s1 := handleQueryError st0 503 "API Error: 503 Service Unavailable" 1000
     let s2 := handleQueryError s1.state 503 "API Error: 503 Service Unavailable" 2000
     let s3 := handleQueryError s2.state 503 "API Error: 503 Service Unavailable" 9000
     s1.scheduledRetryDelay = some 0 ∧ s2.scheduledRetryDelay = some 5000 ∧
       s3.scheduledRetryDelay = some 10000) := by
  refine ⟨rfl, ?_, ?_, by decide⟩
  · intro a
    simp [backoffDelay]
  · intro a
    cases a with
    | zero => simp [backoffDelay]
    | succ n => simp [backoffDelay]

/-- Claim C2: in the part_004 variant, an entry cached under model
version `v1` and read back while the effective configured model differs
from `v1` yields `none`, with the store untouched — indistinguishable
from an absent entry. -/
theorem version_mismatch_is_absence
    (store : Part004.Store) (preferredModel : Option String)
    (twrite now : Nat) (hostname : String) (reviews : List Review)
    (v1 : String)
    (hver : Part004.jsOrString preferredModel Part004.defaultModel ≠ v1) :
    Part004.getFromCache
        (Part004.saveToCache store hostname reviews v1 twrite).2
        preferredModel now hostname
      = (none, (Part004.saveToCache store hostname reviews v1 twrite).2) := by
  have hstore : (Part004.saveToCache store hostname reviews v1 twrite).2
      ("cache_" ++ hostname) = some ⟨hostname, twrite, reviews, v1⟩ := by
    simp [Part004.saveToCache]
  rw [part004_getFromCache_of_entry _ preferredModel now hostname _ hstore]
  rw [if_pos (show (⟨hostname, twrite, reviews, v1⟩ : Part004.CacheEntry).model ≠
    Part004.jsOrString preferredModel Part004.defaultModel from Ne.symm hver)]

/-- Witness for C2 at a concrete store, model pair and clock. -/
theorem version_mismatch_is_absence_witness :
    Part004.getFromCache
        (Part004.saveToCache (fun _ => none) "example.com" [] "gemini-1.5-pro" 100).2
        (some "gemini-2.0-flash") 200 "example.com"
      = (none, (Part004.saveToCache (fun _ => none) "example.com" [] "gemini-1.5-pro" 100).2) :=
  version_mismatch_is_absence (fun _ => none) (some "gemini-2.0-flash") 100 200
    "example.com" [] "gemini-1.5-pro" (by decide)

/-- Claim C8: a `saveToCache` immediately followed by `getFromCache`
(same clock instant, settings unchanged since before the write, i.e. the
same configuration version) returns the freshly written entry — same
`reviews`, `isSource` and `groundingMetadata` — with `isStale = false`,
and leaves the store as the write left it. -/
theorem cache_roundtrip
    (store : LocalStore) (lsc : Option Nat) (now : Nat) (hostname : String)
    (reviews : List Review) (isSource : Bool) (meta : Option String)
    (hsettings : lsc.getD 0 ≤ now) :
    getFromCache (saveToCache store hostname reviews isSource meta now).2
        lsc now hostname
      = (some ⟨⟨hostname, now, reviews, isSource, meta⟩, false⟩,
         (saveToCache store hostname reviews isSource meta now).2) := by
  have hstore : (saveToCache store hostname reviews isSource meta now).2
      (cacheKey hostname) = some ⟨hostname, now, reviews, isSource, meta⟩ := by
    simp [saveToCache, setKey]
  rw [getFromCache_of_entry _ lsc now hostname _ hstore]
  have hage : ¬((now : Int) - ((⟨hostname, now, reviews, isSource, meta⟩ :
      CacheEntry).timestamp : Int) > CACHE_EXPIRE_MS) := by
    show ¬((now : Int) - (now : Int) > CACHE_EXPIRE_MS)
    rw [sub_self]
    decide
  rw [if_neg hage]
  have h1 : decide ((now : Int) - ((⟨hostname, now, reviews, isSource, meta⟩ :
      CacheEntry).timestamp : Int) > CACHE_STALE_MS) = false := by
    show decide ((now : Int) - (now : Int) > CACHE_STALE_MS) = false
    rw [sub_self]
    decide
  have h2 : decide ((⟨hostname, now, reviews, isSource, meta⟩ :
      CacheEntry).timestamp < lsc.getD 0) = false := by
    exact decide_eq_false (Nat.not_lt.mpr hsettings)
  rw [h1, h2, Bool.false_or]

/-- Witness for C8 at a concrete write/read pair. -/
theorem cache_roundtrip_witness :
    getFromCache (saveToCache (fun _ => none) "example.com"
        [⟨"Trustpilot", "https://tp.example", 4, ["good"]⟩] true (some "meta") 50).2
        (some 10) 50 "example.com"
      = (some ⟨⟨"example.com", 50,
            [⟨"Trustpilot", "https://tp.example", 4, ["good"]⟩], true, some "meta"⟩, false⟩,
         (saveToCache (fun _ => none) "example.com"
            [⟨"Trustpilot", "https://tp.example", 4, ["good"]⟩] true (some "meta") 50).2) :=
  cache_roundtrip (fun _ => none) (some 10) 50 "example.com"
    [⟨"Trustpilot", "https://tp.example", 4, ["good"]⟩] true (some "meta") (by decide)

/-- Claim C6: an entry whose age lies strictly between the stale and
expire thresholds is returned with `isStale = true` and not deleted; an
entry older than the expire threshold is deleted as a side effect and the
read returns nothing, so any subsequent read also returns nothing. -/
theorem age_based_get
    (store : LocalStore) (lsc : Option Nat) (now : Nat) (hostname : String)
    (e : CacheEntry) (hstore : store (cacheKey hostname) = some e) :
    (CACHE_STALE_MS < (now : Int) - (e.timestamp : Int) →
     (now : Int) - (e.timestamp : Int) < CACHE_EXPIRE_MS →
       getFromCache store lsc now hostname = (some ⟨e, true⟩, store)) ∧
    (CACHE_EXPIRE_MS < (now : Int) - (e.timestamp : Int) →
       (getFromCache store lsc now hostname).1 = none ∧
       (getFromCache store lsc now hostname).2 (cacheKey hostname) = none ∧
       (∀ (lsc' : Option Nat) (now' : Nat),
          getFromCache (getFromCache store lsc now hostname).2 lsc' now' hostname
            = (none, (getFromCache store lsc now hostname).2))) := by
  rw [getFromCache_of_entry store lsc now hostname e hstore]
  constructor
  · intro hstale hexp
    rw [if_neg (by omega)]
    have h1 : decide ((now : Int) - (e.timestamp : Int) > CACHE_STALE_MS) = true := by
      simpa using hstale
    rw [h1, Bool.true_or]
  · intro hexp
    rw [if_pos hexp]
    refine ⟨rfl, by simp [removeKey], ?_⟩
    intro lsc' now'
    exact getFromCache_of_absent _ lsc' now' hostname (by simp [removeKey])

/-- Witness for C6: a 10-day-old entry (stale, not expired) and a
40-day-old entry (expired) against the 7-day/30-day thresholds. -/
theorem age_based_get_witness :
    (getFromCache (fun k => if k = cacheKey "a.com"
        then some ⟨"a.com", 0, [], false, none⟩ else none)
        none 864000000 "a.com"
      = (some ⟨⟨"a.com", 0, [], false, none⟩, true⟩,
         fun k => if k = cacheKey "a.com"
           then some ⟨"a.com", 0, [], false, none⟩ else none)) ∧
    ((getFromCache (fun k => if k = cacheKey "b.com"
        then some ⟨"b.com", 0, [], false, none⟩ else none)
        none 3456000000 "b.com").1 = none) := by
  constructor
  · exact (age_based_get _ none 864000000 "a.com"
      ⟨"a.com", 0, [], false, none⟩ (by simp)).1 (by decide) (by decide)
  · exact ((age_based_get _ none 3456000000 "b.com"
      ⟨"b.com", 0, [], false, none⟩ (by simp)).2 (by decide)).1

/-- Claim C10: an unexpired entry whose creation timestamp precedes the
recorded last-settings-change timestamp is returned with
`isStale = true` — even when its age is within the stale threshold — and
a settings change alone never turns the read into an absence. -/
theorem settings_change_staleness
    (store : LocalStore) (lsc : Option Nat) (now : Nat) (hostname : String)
    (e : CacheEntry) (hstore : store (cacheKey hostname) = some e)
    (hage : (now : Int) - (e.timestamp : Int) ≤ CACHE_EXPIRE_MS)
    (hsettings : e.timestamp < lsc.getD 0) :
    getFromCache store lsc now hostname = (some ⟨e, true⟩, store) := by
  rw [getFromCache_of_entry store lsc now hostname e hstore]
  rw [if_neg (by omega)]
  have h2 : decide (e.timestamp < lsc.getD 0) = true := by simpa using hsettings
  rw [h2, Bool.or_true]

/-- Witness for C10: a fresh (age 0) entry written just before a settings
change is already reported stale, not absent. -/
theorem settings_change_staleness_witness :
    getFromCache (fun k => if k = cacheKey "a.com"
        then some ⟨"a.com", 1000, [], false, none⟩ else none)
        (some 2000) 1000 "a.com"
      = (some ⟨⟨"a.com", 1000, [], false, none⟩, true⟩,
         fun k => if k = cacheKey "a.com"
           then some ⟨"a.com", 1000, [], false, none⟩ else none) :=
  settings_change_staleness _ (some 2000) 1000 "a.com" _ (by simp)
    (by decide) (by decide)

/-- Claim C5: a 503 failure leaves the failing task in the active slot
with `nextRetryTime = now + delay` and `retryAttempts` incremented, the
queue untouched (the task is not re-queued at the tail), and a deferred
retry scheduled; any other failure records `lastError = message`, clears
the active slot and schedules no retry for the task. -/
theorem error_taxonomy
    (st : SchedState) (t : Task) (status : Nat) (message : String) (now : Nat)
    (hactive : st.currentTask = some t) :
    (status = 503 →
      handleQueryError st status message now =
        ⟨{ st with currentTask := some { t with
              nextRetryTime := some (now + backoffDelay t.retryAttempts),
              retryAttempts := t.retryAttempts + 1 } },
         some (backoffDelay t.retryAttempts)⟩) ∧
    (status ≠ 503 →
      handleQueryError st status message now =
        ⟨{ st with lastError := some message, currentTask := none }, none⟩) := by
  constructor
  · intro h503
    subst h503
    simp [handleQueryError, hactive]
  · intro hother
    simp [handleQueryError, hactive, hother]

/-- Witness for C5: both failure classes at a concrete state. -/
theorem error_taxonomy_witness :
    (handleQueryError ⟨[⟨"q.com", false, none, 0, none⟩],
        some ⟨"a.com", true, some 4, 2, none⟩, none⟩ 503 "API Error: 503" 70
      = ⟨⟨[⟨"q.com", false, none, 0, none⟩],
          some ⟨"a.com", true, some 4, 3, some 10070⟩, none⟩, some 10000⟩) ∧
    (handleQueryError ⟨[⟨"q.com", false, none, 0, none⟩],
        some ⟨"a.com", true, some 4, 2, none⟩, none⟩ 400 "API Error: 400" 70
      = ⟨⟨[⟨"q.com", false, none, 0, none⟩], none, some "API Error: 400"⟩, none⟩) :=
  ⟨(error_taxonomy ⟨[⟨"q.com", false, none, 0, none⟩],
      some ⟨"a.com", true, some 4, 2, none⟩, none⟩
      ⟨"a.com", true, some 4, 2, none⟩ 503 "API Error: 503" 70 rfl).1 rfl,
   (error_taxonomy ⟨[⟨"q.com", false, none, 0, none⟩],
      some ⟨"a.com", true, some 4, 2, none⟩, none⟩
      ⟨"a.com", true, some 4, 2, none⟩ 400 "API Error: 400" 70 rfl).2 (by decide)⟩

/-- Claim C9: `migrateSources` lifts a legacy string list elementwise to
`{domain, state: on, visits: 0}` records, is the identity on
already-migrated record lists, and is therefore idempotent. -/
theorem migrateSources_idempotent :
    (∀ raw : Option RawSources,
       migrateSources (some (.records (migrateSources raw))) = migrateSources raw) ∧
    (∀ l : List String,
       migrateSources (some (.strings l)) = l.map fun s => ⟨s, .on, 0⟩) ∧
    (∀ l : List SourceRecord, migrateSources (some (.records l)) = l) := by
  have hrec : ∀ l : List SourceRecord, migrateSources (some (.records l)) = l := by
    intro l
    cases l with
    | nil => rfl
    | cons a l => rfl
  refine ⟨fun raw => hrec _, fun l => ?_, hrec⟩
  cases l with
  | nil => rfl
  | cons a l => rfl

/-- Counterexample for claim C4.  First conjunct: enqueueing
`("a.com", forceRefresh = true)` while a Task for `a.com` with
`forceRefresh = false` sits in the active slot does not OR the flag — the
claim predicts `some true`.  Second conjunct: enqueueing with a null
`tabId` for a hostname queued with `tabId = 3` keeps `some 3` — the claim
predicts the replacement `[none]`. -/
theorem enqueue_merge_cex :
    ((addToQueue ⟨[], some ⟨"a.com", false, none, 0, none⟩, none⟩
        "a.com" true (some 7)).currentTask.map Task.forceRefresh ≠ some true) ∧
    ((addToQueue ⟨[⟨"b.com", false, some 3, 0, none⟩],
        some ⟨"c.com", false, none, 0, none⟩, none⟩
        "b.com" false none).queryQueue.map Task.tabId ≠ [none]) := by
  decide

/-- Claim C4 as amended: merging into a *queued* Task ORs `forceRefresh`
and overwrites `tabId` only when the new `tabId` is truthy; merging into
the *active* Task overwrites only its `tabId` (again only when truthy)
and leaves `forceRefresh` unchanged; nothing else — fields or queue
position — changes. -/
theorem enqueue_merge
    (st : SchedState) (hostname : String) (fr : Bool) (tid : Option Nat) :
    (∀ pre t post,
       st.queryQueue = pre ++ t :: post →
       (∀ u ∈ pre, u.hostname ≠ hostname) →
       t.hostname = hostname →
       addToQueue st hostname fr tid =
         { st with queryQueue := pre ++
             { t with forceRefresh := t.forceRefresh || fr,
                      tabId := if truthyTab tid then tid else t.tabId } :: post }) ∧
    ((∀ u ∈ st.queryQueue, u.hostname ≠ hostname) →
     ∀ t, st.currentTask = some t → t.hostname = hostname →
       addToQueue st hostname fr tid =
         { st with currentTask := some (if truthyTab tid then { t with tabId := tid } else t) }) := by
  constructor
  · intro pre t post hq hpre ht
    have hany : (st.queryQueue.any fun u => decide (u.hostname = hostname)) = true := by
      rw [List.any_eq_true]
      exact ⟨t, by rw [hq]; exact List.mem_append_right _ (List.mem_cons_self t post),
        by simp [ht]⟩
    unfold addToQueue
    rw [hany, if_pos rfl, hq]
    congr 1
    clear hq hany
    induction pre with
    | nil => simp [mergeQueued, ht]
    | cons u pre ih =>
      have hu : u.hostname ≠ hostname := hpre u (List.mem_cons_self u pre)
      simp only [List.cons_append, mergeQueued, if_neg hu, List.append_eq]
      rw [ih fun v hv => hpre v (List.mem_cons_of_mem u hv)]
  · intro hq t hcur ht
    have hany : (st.queryQueue.any fun u => decide (u.hostname = hostname)) = false := by
      rw [List.any_eq_false]
      intro u hu
      simpa using hq u hu
    unfold addToQueue
    rw [hany, hcur]
    simp only [Bool.false_eq_true, if_false, if_pos ht]

/-- Witness for the amended C4: a queued merge (flag ORed in, truthy
tabId replacing) and an active-slot merge (tabId replaced, flag kept). -/
theorem enqueue_merge_witness :
    (addToQueue ⟨[⟨"a.com", false, some 3, 0, none⟩],
        some ⟨"c.com", false, none, 0, none⟩, none⟩ "a.com" true (some 7)
      = ⟨[⟨"a.com", true, some 7, 0, none⟩],
         some ⟨"c.com", false, none, 0, none⟩, none⟩) ∧
    (addToQueue ⟨[⟨"a.com", false, some 3, 0, none⟩],
        some ⟨"c.com", false, none, 0, none⟩, none⟩ "c.com" true (some 9)
      = ⟨[⟨"a.com", false, some 3, 0, none⟩],
         some ⟨"c.com", false, some 9, 0, none⟩, none⟩) :=
  ⟨(enqueue_merge ⟨[⟨"a.com", false, some 3, 0, none⟩],
      some ⟨"c.com", false, none, 0, none⟩, none⟩ "a.com" true (some 7)).1
      [] ⟨"a.com", false, some 3, 0, none⟩ [] rfl (by simp) rfl,
   (enqueue_merge ⟨[⟨"a.com", false, some 3, 0, none⟩],
      some ⟨"c.com", false, none, 0, none⟩, none⟩ "c.com" true (some 9)).2
      (by decide) ⟨"c.com", false, none, 0, none⟩ rfl rfl⟩

/-- Claim C1: single-flight.  Any sequence of `addToQueue` calls from
process start leaves at most one task per hostname across the union of
the pending queue and the current-task slot; more generally a single
`addToQueue` preserves that invariant from any state satisfying it, and
an enqueue for a hostname that is already queued or active never adds a
task. -/
theorem single_flight (calls : List EnqueueCall) (st : SchedState)
    (hostname : String) (forceRefresh : Bool) (tabId : Option Nat)
    (hinv : SingleFlight st) :
    SingleFlight (runEnqueues calls) ∧
    SingleFlight (addToQueue st hostname forceRefresh tabId) ∧
    (1 ≤ hostCount st hostname →
      taskCount (addToQueue st hostname forceRefresh tabId) = taskCount st) :=
  ⟨runEnqueues_singleFlight calls,
   addToQueue_singleFlight st hostname forceRefresh tabId hinv,
   fun hpresent =>
     addToQueue_taskCount_of_present st hostname forceRefresh tabId hpresent⟩

/-- Witness for C1: two enqueues of the same hostname, and a repeated
enqueue against a state whose slot already holds that hostname. -/
theorem single_flight_witness :
    SingleFlight (runEnqueues [⟨"a.com", false, some 1⟩, ⟨"a.com", true, some 2⟩]) ∧
    SingleFlight (addToQueue ⟨[], some ⟨"a.com", false, some 1, 0, none⟩, none⟩
      "a.com" true (some 2)) ∧
    (1 ≤ hostCount ⟨[], some ⟨"a.com", false, some 1, 0, none⟩, none⟩ "a.com" →
      taskCount (addToQueue ⟨[], some ⟨"a.com", false, some 1, 0, none⟩, none⟩
          "a.com" true (some 2))
        = taskCount ⟨[], some ⟨"a.com", false, some 1, 0, none⟩, none⟩) :=
  single_flight [⟨"a.com", false, some 1⟩, ⟨"a.com", true, some 2⟩]
    ⟨[], some ⟨"a.com", false, some 1, 0, none⟩, none⟩ "a.com" true (some 2)
    (by
      intro h
      simp only [hostCount, List.countP_nil]
      by_cases hh : "a.com" = h
      · rw [if_pos hh]
      · rw [if_neg hh]
        omega)

/-- Counterexample for claim C7's worked example: with records
`[{a,on,5},{b,auto,100},{c,auto,1},{d,off,999}]` and `maxProviders = 1`,
`getActiveSources` does not return `["a", "b"]` — the single provider
slot is consumed by the `on` record `a`, leaving
`max(0, 1 - 1) = 0` slots for `auto` records, so `b` is not selected. -/
theorem active_sources_example_cex :
    getActiveSources (some (.records [⟨"a", .on, 5⟩, ⟨"b", .auto, 100⟩,
      ⟨"c", .auto, 1⟩, ⟨"d", .off, 999⟩])) 1 ≠ ["a", "b"] := by
  decide

/-- Claim C7 as amended: `getActiveSources` returns all `on` domains
followed by the top `max(0, maxProviders - count(on))` `auto` domains by
visits descending and (for duplicate-free registries) never an `off`
domain; on the worked example with `maxProviders = 1` it returns
`["a"]` — all `on` domains, zero remaining `auto` slots. -/
theorem active_sources_selection (raw : Option RawSources)
    (maxProviders : Nat) :
    (∀ r ∈ migrateSources raw, r.state = .on →
       r.domain ∈ getActiveSources raw maxProviders) ∧
    (((migrateSources raw).map SourceRecord.domain).Nodup →
       ∀ r ∈ migrateSources raw, r.state = .off →
         r.domain ∉ getActiveSources raw maxProviders) ∧
    ((getActiveSources raw maxProviders).length =
       (migrateSources raw).countP (fun s => decide (s.state = .on)) +
         min (maxProviders -
               (migrateSources raw).countP (fun s => decide (s.state = .on)))
             ((migrateSources raw).countP (fun s => decide (s.state = .auto)))) ∧
    (getActiveSources raw maxProviders =
       (onSources raw).map SourceRecord.domain ++
         (activeAuto raw maxProviders).map SourceRecord.domain) ∧
    (activeAuto raw maxProviders).Pairwise (fun a b => b.visits ≤ a.visits) ∧
    (∀ r ∈ activeAuto raw maxProviders, r.state = .auto) ∧
    (∀ x ∈ activeAuto raw maxProviders,
       ∀ y ∈ (autoSources raw).drop
         (maxProviders - (onSources raw).length), y.visits ≤ x.visits) ∧
    getActiveSources (some (.records [⟨"a", .on, 5⟩, ⟨"b", .auto, 100⟩,
      ⟨"c", .auto, 1⟩, ⟨"d", .off, 999⟩])) 1 = ["a"] :=
  ⟨fun r hr hron => getActiveSources_mem_of_on raw maxProviders r hr hron,
   fun hnodup r hr hroff =>
     getActiveSources_not_off raw maxProviders hnodup r hr hroff,
   getActiveSources_length raw maxProviders,
   rfl,
   activeAuto_sorted_visits raw maxProviders,
   fun r hr => activeAuto_state raw maxProviders r hr,
   fun x hx y hy => activeAuto_top raw maxProviders x hx y hy,
   by decide⟩

/-- Witness for the amended C7 on the worked example with a duplicate-free
registry: the lone `on` domain is selected and the `off` domain is not. -/
theorem active_sources_selection_witness :
    ((⟨"a", .on, 5⟩ : SourceRecord).domain ∈
      getActiveSources (some (.records [⟨"a", .on, 5⟩, ⟨"b", .auto, 100⟩,
        ⟨"c", .auto, 1⟩, ⟨"d", .off, 999⟩])) 1) ∧
    ((⟨"d", .off, 999⟩ : SourceRecord).domain ∉
      getActiveSources (some (.records [⟨"a", .on, 5⟩, ⟨"b", .auto, 100⟩,
        ⟨"c", .auto, 1⟩, ⟨"d", .off, 999⟩])) 1) :=
  ⟨(active_sources_selection (some (.records [⟨"a", .on, 5⟩, ⟨"b", .auto, 100⟩,
      ⟨"c", .auto, 1⟩, ⟨"d", .off, 999⟩])) 1).1
      ⟨"a", .on, 5⟩ (by decide) rfl,
   ((active_sources_selection (some (.records [⟨"a", .on, 5⟩, ⟨"b", .auto, 100⟩,
      ⟨"c", .auto, 1⟩, ⟨"d", .off, 999⟩])) 1).2.1 (by decide))
      ⟨"d", .off, 999⟩ (by decide) rfl⟩

end SiteVouch
